import Mathlib

/-!
Verification of the CNTK 105 autoencoder tutorial notebook
(`Tutorials/CNTK_105_Basic_Autoencoder_for_Dimensionality_Reduction.ipynb`).

The notebook's own code is a sequence of configuration constants, a training
loop, an evaluation loop, two model-construction functions (a shallow and a
deep autoencoder), a label-grouping cell and a cosine-similarity helper.
We embed these shallowly:

* numeric configuration constants keep their Python names and values;
* the training and evaluation loops become folds over `List.range n`, with
  the per-step framework calls (`train_minibatch`, `test_minibatch`,
  `ProgressPrinter` accumulation) modelled as explicit state updates —
  the `cntk` package itself is part of the CNTK repository but its source is
  not in scope, so those framework calls are modelled from the spec;
* the model builders become constructors of a small network syntax `Net`
  together with a notebook-global environment holding `encoded_model`;
* floating-point scalars are modelled as real numbers (`ℝ`) where the code
  uses `log`/`sqrt`/`exp`, and as rationals (`ℚ`) in the loop accumulators,
  where only field arithmetic occurs.
-/

namespace CNTK105

/-! ### Training configuration (notebook cell 12, `train_and_test`) -/

/-- `input_dim = 784` (cell 10). -/
def input_dim : ℕ := 784

/-- `encoding_dim = 32` (cell 10). -/
def encoding_dim : ℕ := 32

/-- `isFast = True` (cell 5). -/
def isFast : Bool := true

/-- `epoch_size = 30000` — used only to build the learning-rate schedule. -/
def epoch_size : ℕ := 30000

/-- `minibatch_size = 64`. -/
def minibatch_size : ℕ := 64

/-- `num_sweeps_to_train_with = 5 if isFast else 100`. -/
def num_sweeps_to_train_with : ℕ := if isFast then 5 else 100

/-- `num_samples_per_sweep = 60000`. -/
def num_samples_per_sweep : ℕ := 60000

/-- `num_minibatches_to_train = (num_samples_per_sweep * num_sweeps_to_train_with) // minibatch_size`.
Python `//` on non-negative ints is `Nat` division. -/
def num_minibatches_to_train : ℕ :=
  num_samples_per_sweep * num_sweeps_to_train_with / minibatch_size

/-! ### The training loop

Each iteration draws one minibatch, calls `trainer.train_minibatch(data)` and
then `pp.update_with_trainer(trainer, with_metric=True)`.

Modelled from the spec: `Trainer.train_minibatch` (cntk framework code, not
under src/) applies one optimizer update to all model parameters and records
the minibatch average of the error metric; `ProgressPrinter` accumulates
metric × sample-count into a numerator and the sample count into a
denominator, and `avg_metric_since_start` returns numerator/denominator.
The parameter vector is abstracted as a type `P`, the optimizer update as a
function `upd : P → ℕ → P` and the observed per-minibatch metric as
`metric : ℕ → ℚ`. -/

/-- State of the training loop: current parameters, the number of optimizer
update steps performed so far, and the `ProgressPrinter` accumulators. -/
structure TrainSt (P : Type) where
  params : P
  updates : ℕ
  numer : ℚ
  denom : ℚ

/-- One iteration of the training loop (cell 12): one `train_minibatch`
parameter update followed by the `ProgressPrinter` accumulation over the
64 samples of the minibatch. -/
def trainStep {P : Type} (upd : P → ℕ → P) (metric : ℕ → ℚ)
    (s : TrainSt P) (i : ℕ) : TrainSt P :=
  { params := upd s.params i
    updates := s.updates + 1
    numer := s.numer + metric i * (minibatch_size : ℚ)
    denom := s.denom + (minibatch_size : ℚ) }

/-- The training loop: `for i in range(num_minibatches_to_train): ...`. -/
def trainLoop {P : Type} (upd : P → ℕ → P) (metric : ℕ → ℚ) (p0 : P) :
    TrainSt P :=
  (List.range num_minibatches_to_train).foldl (trainStep upd metric)
    ⟨p0, 0, 0, 0⟩

/-- `train_error = pp.avg_metric_since_start()*100`. -/
def train_error {P : Type} (upd : P → ℕ → P) (metric : ℕ → ℚ) (p0 : P) : ℚ :=
  (trainLoop upd metric p0).numer / (trainLoop upd metric p0).denom * 100

/-! ### The evaluation (test) phase of `train_and_test` -/

/-- `test_minibatch_size = 32`. -/
def test_minibatch_size : ℕ := 32

/-- `num_samples = 10000`. -/
def num_samples : ℕ := 10000

/-- `num_minibatches_to_test = num_samples / test_minibatch_size`, used as
`int(num_minibatches_to_test)` — the floor, i.e. `Nat` division. -/
def num_minibatches_to_test : ℕ := num_samples / test_minibatch_size

/-- State of the evaluation loop: the model parameters, the test reader's
cursor (how many of the `num_samples` test samples have been requested so
far), and the metric accumulators `metric_numer`, `metric_denom`. -/
structure EvalSt (P : Type) where
  params : P
  cursor : ℕ
  numer : ℚ
  denom : ℚ

/-- One iteration of the test loop (cell 12): draw one minibatch of
`test_minibatch_size` samples from the single-pass test reader, compute
`eval_error = trainer.test_minibatch(data)` and accumulate
`metric_numer += np.abs(eval_error * test_minibatch_size)`,
`metric_denom += test_minibatch_size`.

Modelled from the spec: `Trainer.test_minibatch` (cntk framework code, not
under src/) computes the same error metric as training *without any
parameter update*; the error it reports is a function `err` of the current
parameters and the batch index. The single-sweep reader hands out
`min 32 (remaining)` samples. -/
def testStep {P : Type} (err : P → ℕ → ℚ) (s : EvalSt P) (i : ℕ) : EvalSt P :=
  { params := s.params
    cursor := s.cursor + min test_minibatch_size (num_samples - s.cursor)
    numer := s.numer + |err s.params i * (test_minibatch_size : ℚ)|
    denom := s.denom + (test_minibatch_size : ℚ) }

/-- The test loop: `for i in range(0, int(num_minibatches_to_test)): ...`. -/
def evalPhase {P : Type} (err : P → ℕ → ℚ) (p : P) : EvalSt P :=
  (List.range num_minibatches_to_test).foldl (testStep err) ⟨p, 0, 0, 0⟩

/-- `test_error = (metric_numer*100.0) / (metric_denom)`. -/
def test_error {P : Type} (err : P → ℕ → ℚ) (p : P) : ℚ :=
  (evalPhase err p).numer * 100 / (evalPhase err p).denom

/-! ### Fold characterisations of the two loops -/

theorem trainLoop_foldl {P : Type} (upd : P → ℕ → P) (metric : ℕ → ℚ)
    (l : List ℕ) (s : TrainSt P) :
    ((l.foldl (trainStep upd metric) s).updates = s.updates + l.length) ∧
    ((l.foldl (trainStep upd metric) s).numer =
      s.numer + (l.map (fun i => metric i * (minibatch_size : ℚ))).sum) ∧
    ((l.foldl (trainStep upd metric) s).denom =
      s.denom + (minibatch_size : ℚ) * l.length) := by
  induction l generalizing s with
  | nil => simp
  | cons a t ih =>
    obtain ⟨h1, h2, h3⟩ := ih (trainStep upd metric s a)
    refine ⟨?_, ?_, ?_⟩
    · rw [List.foldl_cons, h1]; simp only [trainStep, List.length_cons]; omega
    · rw [List.foldl_cons, h2]
      simp only [trainStep, List.map_cons, List.sum_cons]; ring
    · rw [List.foldl_cons, h3]
      simp only [trainStep, List.length_cons]; push_cast; ring

theorem evalPhase_foldl {P : Type} (err : P → ℕ → ℚ) (l : List ℕ)
    (s : EvalSt P) :
    ((l.foldl (testStep err) s).params = s.params) ∧
    ((l.foldl (testStep err) s).cursor =
      l.foldl (fun c _ => c + min test_minibatch_size (num_samples - c))
        s.cursor) ∧
    ((l.foldl (testStep err) s).numer =
      s.numer +
        (l.map (fun i => |err s.params i * (test_minibatch_size : ℚ)|)).sum) ∧
    ((l.foldl (testStep err) s).denom =
      s.denom + (test_minibatch_size : ℚ) * l.length) := by
  induction l generalizing s with
  | nil => simp
  | cons a t ih =>
    obtain ⟨h0, h1, h2, h3⟩ := ih (testStep err s a)
    refine ⟨?_, ?_, ?_, ?_⟩
    · rw [List.foldl_cons, h0]; rfl
    · rw [List.foldl_cons, h1, List.foldl_cons]
      simp only [testStep]
    · rw [List.foldl_cons, h2]
      simp only [testStep, List.map_cons, List.sum_cons]; ring
    · rw [List.foldl_cons, h3]
      simp only [testStep, List.length_cons]; push_cast; ring

theorem trainLoop_updates {P : Type} (upd : P → ℕ → P) (metric : ℕ → ℚ)
    (p0 : P) : (trainLoop upd metric p0).updates = num_minibatches_to_train := by
  have h := (trainLoop_foldl upd metric (List.range num_minibatches_to_train)
    ⟨p0, 0, 0, 0⟩).1
  rw [trainLoop, h, List.length_range]
  simp

theorem evalPhase_params {P : Type} (err : P → ℕ → ℚ) (p : P) :
    (evalPhase err p).params = p :=
  (evalPhase_foldl err (List.range num_minibatches_to_test) ⟨p, 0, 0, 0⟩).1

set_option maxRecDepth 20000 in
theorem eval_cursor_concrete :
    (List.range num_minibatches_to_test).foldl
      (fun c _ => c + min test_minibatch_size (num_samples - c)) 0 = 9984 := by
  decide

theorem evalPhase_cursor {P : Type} (err : P → ℕ → ℚ) (p : P) :
    (evalPhase err p).cursor = 9984 := by
  have h := (evalPhase_foldl err (List.range num_minibatches_to_test)
    ⟨p, 0, 0, 0⟩).2.1
  rw [evalPhase, h]
  exact eval_cursor_concrete

theorem evalPhase_denom {P : Type} (err : P → ℕ → ℚ) (p : P) :
    (evalPhase err p).denom = 9984 := by
  have h := (evalPhase_foldl err (List.range num_minibatches_to_test)
    ⟨p, 0, 0, 0⟩).2.2.2
  rw [evalPhase, h, List.length_range]
  norm_num [test_minibatch_size, num_minibatches_to_test, num_samples]

/-! ### Claim theorems: training and evaluation loops -/

/-- C1 (counterexample): the training loop does *not* perform
`(30000*5)/64` update steps.  The notebook trains
`(num_samples_per_sweep * num_sweeps_to_train_with) // minibatch_size
 = (60000*5)//64 = 4687` minibatches; `epoch_size = 30000` parameterises
only the learning-rate schedule. -/
theorem steps_ne_claimed :
    (trainLoop (fun (p : Unit) _ => p) (fun _ => (0 : ℚ)) ()).updates ≠
      30000 * 5 / 64 := by
  rw [trainLoop_updates]
  decide

/-- C1 (amended): the training loop performs exactly
`(60000*5)//64 = 4687` optimizer update steps, and — given that each
per-minibatch error metric is a fraction in `[0,1]` — the reported average
training error percentage `pp.avg_metric_since_start()*100` lies in
`[0, 100]`. -/
theorem train_steps_and_error_range {P : Type} (upd : P → ℕ → P)
    (metric : ℕ → ℚ) (p0 : P)
    (h : ∀ i, 0 ≤ metric i ∧ metric i ≤ 1) :
    (trainLoop upd metric p0).updates = num_minibatches_to_train ∧
    num_minibatches_to_train = 4687 ∧
    0 ≤ train_error upd metric p0 ∧ train_error upd metric p0 ≤ 100 := by
  obtain ⟨-, hn, hd⟩ := trainLoop_foldl upd metric
    (List.range num_minibatches_to_train) ⟨p0, 0, 0, 0⟩
  have hnum : (trainLoop upd metric p0).numer =
      ((List.range num_minibatches_to_train).map
        (fun i => metric i * (minibatch_size : ℚ))).sum := by
    rw [trainLoop, hn, zero_add]
  have hden : (trainLoop upd metric p0).denom =
      (minibatch_size : ℚ) * num_minibatches_to_train := by
    rw [trainLoop, hd, zero_add, List.length_range]
  have hnum_nonneg : 0 ≤ (trainLoop upd metric p0).numer := by
    rw [hnum]
    apply List.sum_nonneg
    intro x hx
    obtain ⟨i, -, rfl⟩ := List.mem_map.mp hx
    exact mul_nonneg (h i).1 (by norm_num)
  have hden_pos : 0 < (trainLoop upd metric p0).denom := by
    rw [hden]
    norm_num [minibatch_size, num_minibatches_to_train, num_samples_per_sweep,
      num_sweeps_to_train_with, isFast]
  have hle : (trainLoop upd metric p0).numer ≤ (trainLoop upd metric p0).denom := by
    rw [hnum, hden]
    calc ((List.range num_minibatches_to_train).map
            (fun i => metric i * (minibatch_size : ℚ))).sum
        ≤ ((List.range num_minibatches_to_train).map
            (fun _ => (minibatch_size : ℚ))).sum := by
          apply List.sum_le_sum
          intro i _
          have := (h i).2
          nlinarith [(h i).1]
      _ = (minibatch_size : ℚ) * num_minibatches_to_train := by
          rw [List.map_const', List.sum_replicate, List.length_range,
            nsmul_eq_mul]
          ring
  refine ⟨trainLoop_updates upd metric p0, by decide, ?_, ?_⟩
  · exact mul_nonneg (div_nonneg hnum_nonneg hden_pos.le) (by norm_num)
  · have h1 : (trainLoop upd metric p0).numer /
        (trainLoop upd metric p0).denom ≤ 1 :=
      (div_le_one hden_pos).mpr hle
    calc train_error upd metric p0
        = (trainLoop upd metric p0).numer /
            (trainLoop upd metric p0).denom * 100 := rfl
      _ ≤ 1 * 100 := by
          exact mul_le_mul_of_nonneg_right h1 (by norm_num)
      _ = 100 := by norm_num

/-- C1 witness: with a constantly-zero metric and identity update, the
training loop performs 4687 steps and reports an error in `[0,100]`. -/
theorem train_steps_and_error_range_inst :
    (trainLoop (fun (p : Unit) _ => p) (fun _ => (0 : ℚ)) ()).updates =
      num_minibatches_to_train ∧
    num_minibatches_to_train = 4687 ∧
    0 ≤ train_error (fun (p : Unit) _ => p) (fun _ => (0 : ℚ)) () ∧
    train_error (fun (p : Unit) _ => p) (fun _ => (0 : ℚ)) () ≤ 100 :=
  train_steps_and_error_range (fun (p : Unit) _ => p) (fun _ => (0 : ℚ)) ()
    (fun _ => ⟨le_refl 0, by norm_num⟩)

/-- C2: the test phase iterates exactly `floor(10000/32) = 312` batches,
accumulates `eval_error * 32` into `metric_numer` and `32` into
`metric_denom` per batch (given the per-batch error is non-negative, the
`np.abs` is the identity), performs no parameter update, and reports
`100 * metric_numer / metric_denom`. -/
theorem eval_phase_spec {P : Type} (err : P → ℕ → ℚ) (p : P)
    (h : ∀ i, 0 ≤ err p i) :
    num_minibatches_to_test = 312 ∧
    (evalPhase err p).denom = 312 * (test_minibatch_size : ℚ) ∧
    (evalPhase err p).params = p ∧
    (evalPhase err p).numer =
      ((List.range 312).map
        (fun i => err p i * (test_minibatch_size : ℚ))).sum ∧
    test_error err p =
      100 * (evalPhase err p).numer / (evalPhase err p).denom := by
  obtain ⟨hp, -, hn, hd⟩ := evalPhase_foldl err
    (List.range num_minibatches_to_test) ⟨p, 0, 0, 0⟩
  refine ⟨by decide, ?_, hp, ?_, ?_⟩
  · rw [evalPhase, hd, zero_add, List.length_range]
    norm_num [num_minibatches_to_test, test_minibatch_size, num_samples]
  · rw [evalPhase, hn, zero_add,
      show num_minibatches_to_test = 312 from by decide]
    exact congrArg List.sum (List.map_congr_left
      (fun i _ => abs_of_nonneg (mul_nonneg (h i) (by norm_num))))
  · rw [test_error]
    ring

/-- C2 witness: instantiated with a constantly-zero per-batch error. -/
theorem eval_phase_spec_inst :
    num_minibatches_to_test = 312 ∧
    (evalPhase (fun (_ : Unit) _ => (0 : ℚ)) ()).denom =
      312 * (test_minibatch_size : ℚ) ∧
    test_error (fun (_ : Unit) _ => (0 : ℚ)) () =
      100 * (evalPhase (fun (_ : Unit) _ => (0 : ℚ)) ()).numer /
        (evalPhase (fun (_ : Unit) _ => (0 : ℚ)) ()).denom := by
  obtain ⟨h1, h2, -, -, h5⟩ :=
    eval_phase_spec (fun (_ : Unit) _ => (0 : ℚ)) () (fun _ => le_refl 0)
  exact ⟨h1, h2, h5⟩

/-- C4: the evaluation loop never mutates the model parameters — after a
full evaluation pass the parameter state is exactly the input parameter
state — and consequently a second evaluation run on the same model and the
same data reports the same error value as the first. -/
theorem evaluator_frame {P : Type} (err : P → ℕ → ℚ) (p : P) :
    (evalPhase err p).params = p ∧
    test_error err ((evalPhase err p).params) = test_error err p := by
  refine ⟨evalPhase_params err p, ?_⟩
  rw [evalPhase_params err p]

/-- C9: the evaluation denominator reaches `312*32 = 9984`, the test
reader is asked for exactly 9984 of its 10000 samples, and the remaining
16 samples are never requested. -/
theorem eval_covers_9984 {P : Type} (err : P → ℕ → ℚ) (p : P) :
    (evalPhase err p).denom = 9984 ∧
    (evalPhase err p).cursor = 9984 ∧
    num_samples - (evalPhase err p).cursor = 16 := by
  refine ⟨evalPhase_denom err p, evalPhase_cursor err p, ?_⟩
  rw [evalPhase_cursor err p]
  decide

/-! ### The model builders (cells 10 and 21)

A constructed CNTK function graph is embedded as a small network syntax:
the input variable, elementwise scaling by a constant (`features/255.0`,
`C.element_times(C.constant(1.0/255.0), features)`) and dense layers.
A `Dense(outDim, activation)` layer applied to an `inDim`-dimensional input
owns an `outDim × inDim` weight matrix (glorot-initialised; the initialiser
samples are abstracted as a function `init`) and a zero-initialised bias of
length `outDim`. -/

/-- Dot product of two real vectors. -/
def dotR (u v : List ℝ) : ℝ := (List.zipWith (· * ·) u v).sum

/-- The two activations used in the notebook, `C.relu` and `C.sigmoid`. -/
inductive Act
  | relu
  | sigmoid

/-- Semantics of an activation on one scalar. -/
noncomputable def applyAct : Act → ℝ → ℝ
  | Act.relu, x => max 0 x
  | Act.sigmoid, x => 1 / (1 + Real.exp (-x))

/-- A dense layer: weight matrix (one row per output component), bias,
activation. -/
structure DenseLayer where
  W : List (List ℝ)
  b : List ℝ
  act : Act

/-- A constructed model: the input variable, scaling, or a dense layer
applied to an inner net. -/
inductive Net
  | inp
  | scale (c : ℝ) (n : Net)
  | dense (l : DenseLayer) (n : Net)

/-- Forward evaluation of a net on an input vector. -/
noncomputable def evalNet : Net → List ℝ → List ℝ
  | Net.inp, x => x
  | Net.scale c n, x => (evalNet n x).map (fun t => c * t)
  | Net.dense l n, x =>
      let h := evalNet n x
      List.zipWith (fun row bi => applyAct l.act (dotR row h + bi)) l.W l.b

/-- An `m × n` matrix of initialiser samples. -/
def mkMatrix (init : ℕ → ℕ → ℝ) (m n : ℕ) : List (List ℝ) :=
  (List.range m).map (fun i => (List.range n).map (init i))

/-- `Dense(outDim, activation = act)` applied to an `inDim`-dimensional
input: glorot-sampled `outDim × inDim` weights and the default zero bias
(`init_bias = 0`). -/
def mkDense (init : ℕ → ℕ → ℝ) (outDim inDim : ℕ) (act : Act) : DenseLayer :=
  ⟨mkMatrix init outDim inDim, List.replicate outDim 0, act⟩

/-- The notebook's module-level mutable state: the global `encoded_model`
initialised to `None` in cell 21. -/
structure NotebookEnv where
  encoded_model : Option Net

/-- `create_model` (cell 10):
`encode = Dense(encoding_dim, relu)(features/255.0)`;
`decode = Dense(input_dim, sigmoid)(encode)`; returns `decode`.
`init ℓ` abstracts the glorot samples of layer `ℓ`. -/
noncomputable def create_model (init : ℕ → ℕ → ℕ → ℝ) : Net :=
  Net.dense (mkDense (init 1) input_dim encoding_dim Act.sigmoid)
    (Net.dense (mkDense (init 0) encoding_dim input_dim Act.relu)
      (Net.scale (1 / 255) Net.inp))

/-- State-passing form of the shallow construction: `create_model` contains
no `global` statement and touches no module-level variable. -/
noncomputable def create_model_st (init : ℕ → ℕ → ℕ → ℝ) (env : NotebookEnv) :
    Net × NotebookEnv :=
  (create_model init, env)

/-- `encoding_dims = [128, 64, 32]` (cell 21). -/
def encoding_dims : List ℕ := [128, 64, 32]

/-- `decoding_dims = [64, 128]` (cell 21). -/
def decoding_dims : List ℕ := [64, 128]

/-- The `for dim in dims:` loops of `create_deep_model`: chain
`Dense(dim, relu)` layers, threading the current dimensionality.  Returns
the chained net and the resulting dimensionality; `layerIdx` numbers the
glorot samples. -/
noncomputable def denseChain (init : ℕ → ℕ → ℕ → ℝ) (layerIdx : ℕ) (dims : List ℕ)
    (inDim : ℕ) (n : Net) : Net × ℕ :=
  match dims with
  | [] => (n, inDim)
  | d :: rest =>
      denseChain init (layerIdx + 1) rest d
        (Net.dense (mkDense (init layerIdx) d inDim Act.relu) n)

/-- The encoder built inside `create_deep_model`: the input scaled by
`1/255` followed by relu dense layers of widths `encoding_dims`. -/
noncomputable def deepEncoder (init : ℕ → ℕ → ℕ → ℝ) : Net :=
  (denseChain init 0 encoding_dims input_dim (Net.scale (1 / 255) Net.inp)).1

/-- `create_deep_model` (cell 21): builds the encoder chain, executes
`global encoded_model; encoded_model = encode` (overwriting whatever the
global held), then the relu decoder chain and a final
`Dense(input_dim, sigmoid)` layer, and returns the full reconstruction
net. -/
noncomputable def create_deep_model (init : ℕ → ℕ → ℕ → ℝ)
    (_env : NotebookEnv) : Net × NotebookEnv :=
  let encodePair := denseChain init 0 encoding_dims input_dim
    (Net.scale (1 / 255) Net.inp)
  let env2 : NotebookEnv := { encoded_model := some encodePair.1 }
  let decodePair := denseChain init encoding_dims.length decoding_dims
    encodePair.2 encodePair.1
  (Net.dense
      (mkDense (init (encoding_dims.length + decoding_dims.length))
        input_dim decodePair.2 Act.sigmoid)
      decodePair.1,
    env2)

/-- A dense layer built by `mkDense` always outputs exactly `outDim`
components, whatever the input. -/
theorem evalNet_mkDense_length (init : ℕ → ℕ → ℝ) (outDim inDim : ℕ)
    (act : Act) (n : Net) (x : List ℝ) :
    (evalNet (Net.dense (mkDense init outDim inDim act) n) x).length =
      outDim := by
  simp [evalNet, mkDense, mkMatrix]

/-! ### Claim theorems: model construction and the `encoded_model` global -/

/-- C3 (counterexample): constructing only the shallow model leaves the
notebook-global `encoded_model` holding its initial value `none` — the
shallow autoencoder's bottleneck vector is *not* separately retrievable
after construction; `create_model` returns only the full reconstruction
net. -/
theorem shallow_bottleneck_not_exposed :
    ((create_model_st (fun _ _ _ => 0) ⟨none⟩).2).encoded_model = none := rfl

/-- C3 (amended): only the deep variant exposes its bottleneck.  After
`create_deep_model` the global `encoded_model` holds the encoder prefix of
the model, and for every input the retrieved bottleneck vector has exactly
`K = 32 < 784 = D` components; `create_model` leaves the environment
untouched. -/
theorem deep_bottleneck_retrievable (init : ℕ → ℕ → ℕ → ℝ)
    (env : NotebookEnv) (x : List ℝ) :
    ∃ enc, (create_deep_model init env).2.encoded_model = some enc ∧
      (evalNet enc x).length = encoding_dim ∧
      encoding_dim < input_dim ∧
      (create_model_st init env).2 = env := by
  refine ⟨deepEncoder init, rfl, ?_, by decide, rfl⟩
  simp [deepEncoder, denseChain, encoding_dims, encoding_dim, evalNet,
    mkDense, mkMatrix]

/-- C10: `create_deep_model` mutates the module-level global
`encoded_model`, binding it to the encoder prefix of the deep model just
built and overwriting any previous binding (in particular a previous deep
model's encoder); `create_model` never assigns the global, so after
constructing only the shallow model the global still holds its initial
value `None`. -/
theorem encoded_model_side_effect (i1 i2 : ℕ → ℕ → ℕ → ℝ)
    (env : NotebookEnv) :
    (create_deep_model i1 env).2.encoded_model = some (deepEncoder i1) ∧
    (create_deep_model i2 (create_deep_model i1 env).2).2.encoded_model =
      some (deepEncoder i2) ∧
    (create_model_st i1 env).2.encoded_model = env.encoded_model ∧
    (create_model_st i1 ⟨none⟩).2.encoded_model = none :=
  ⟨rfl, rfl, rfl, rfl⟩

/-! ### The training loss (cell 12)

`target = label/255.0`;
`loss = -(target * C.log(model) + (1 - target) * C.log(1 - model))`,
elementwise over the 784 vector components, and the training `input_map`
binds both the `input` and the `label` variable to
`reader_train.streams.features`. -/

/-- The streams exposed by `create_reader`. -/
inductive StreamId
  | features
  | labels_viz

/-- The two model variables bound by the training `input_map`. -/
inductive TrainVar
  | input
  | label

/-- `input_map = { input: reader_train.streams.features,
                   label: reader_train.streams.features }`. -/
def train_input_map : TrainVar → StreamId
  | TrainVar.input => StreamId.features
  | TrainVar.label => StreamId.features

/-- The loss node built in `train_and_test`, applied to the model output
and the raw label batch. -/
noncomputable def lossNode (modelOut label : List ℝ) : List ℝ :=
  let target := label.map (fun t => t / 255)
  List.zipWith (fun p y => -(y * Real.log p + (1 - y) * Real.log (1 - p)))
    modelOut target

/-- The spec's formula, for comparison with the notebook's loss node:
binary cross-entropy `−[y·log p + (1−y)·log(1−p)]` of output `p` and
target `y`. -/
noncomputable def spec_bce (p y : ℝ) : ℝ :=
  -(y * Real.log p + (1 - y) * Real.log (1 - p))

/-- C7: in every training step the label variable is fed the features
stream (`input_map`), so on each drawn batch the loss node computes,
componentwise, exactly the binary cross-entropy between the sigmoid output
`p` and the target obtained by rescaling the input batch by `1/255`. -/
theorem loss_is_bce_of_rescaled_input (p x : List ℝ) :
    train_input_map TrainVar.label = train_input_map TrainVar.input ∧
    train_input_map TrainVar.label = StreamId.features ∧
    lossNode p x = List.zipWith (fun pi xi => spec_bce pi (xi / 255)) p x := by
  refine ⟨rfl, rfl, ?_⟩
  rw [lossNode]
  simp only [List.zipWith_map_right]
  rfl

/-! ### The Inspector (cells 29 and 31) -/

/-- `scipy.spatial.distance.cosine(u, v)
    = 1 − ⟨u,v⟩ / (‖u‖₂ ‖v‖₂)`. -/
noncomputable def cosine (u v : List ℝ) : ℝ :=
  1 - dotR u v / (Real.sqrt (dotR u u) * Real.sqrt (dotR v v))

/-- `image_pair_cosine_distance` (cell 31): `raise ValueError(...)` when the
two images differ in size, else `1 - spatial.distance.cosine(img1, img2)`.
The raise is embedded as an `Except.error` result of the call. -/
noncomputable def image_pair_cosine_distance (img1 img2 : List ℝ) :
    Except String ℝ :=
  if img1.length ≠ img2.length then
    Except.error "Two images need to be of same dimension"
  else Except.ok (1 - cosine img1 img2)

/-- C5: on vectors of unequal length `image_pair_cosine_distance` fails
with the invalid-argument `ValueError`; the failure is the result of that
single call (no global abort in the embedding), and on vectors of equal
length no error is raised. -/
theorem cosine_distance_size_check (v1 v2 : List ℝ) :
    (v1.length ≠ v2.length →
      image_pair_cosine_distance v1 v2 =
        Except.error "Two images need to be of same dimension") ∧
    (v1.length = v2.length →
      image_pair_cosine_distance v1 v2 = Except.ok (1 - cosine v1 v2)) := by
  constructor <;> intro h <;> simp [image_pair_cosine_distance, h]

/-- C5 witness: a length-1 vs length-2 pair errors; a length-1 pair does
not. -/
theorem cosine_distance_size_check_inst :
    image_pair_cosine_distance [(1 : ℝ)] [1, 2] =
      Except.error "Two images need to be of same dimension" ∧
    image_pair_cosine_distance [(1 : ℝ)] [2] =
      Except.ok (1 - cosine [(1 : ℝ)] [2]) :=
  ⟨(cosine_distance_size_check [(1 : ℝ)] [1, 2]).1 (by simp),
   (cosine_distance_size_check [(1 : ℝ)] [2]).2 (by simp)⟩

/-- C6 (counterexample): on the zero vector the claim fails — the cosine
distance degenerates to a division by zero (`NaN` under scipy, `0` under
the real-field convention `x/0 = 0`), and the returned similarity is not
`1`. -/
theorem cosine_distance_self_zero :
    image_pair_cosine_distance [(0 : ℝ)] [(0 : ℝ)] ≠ Except.ok 1 := by
  have hd : dotR [(0 : ℝ)] [(0 : ℝ)] = 0 := by norm_num [dotR]
  have hz : image_pair_cosine_distance [(0 : ℝ)] [(0 : ℝ)] = Except.ok 0 := by
    simp [image_pair_cosine_distance, cosine, hd]
  rw [hz]
  intro h
  exact one_ne_zero (Except.ok.inj h).symm

/-- C6 (amended): for every vector with positive squared norm,
`image_pair_cosine_distance(v, v)` succeeds and returns exactly
`1 = 1 − cosine_distance(v, v)`. -/
theorem cosine_distance_self (v : List ℝ) (h : 0 < dotR v v) :
    image_pair_cosine_distance v v = Except.ok 1 := by
  have hc : cosine v v = 0 := by
    rw [cosine, Real.mul_self_sqrt h.le, div_self (ne_of_gt h)]
    ring
  simp [image_pair_cosine_distance, hc]

/-- C6 witness: the one-component vector `[1]`. -/
theorem cosine_distance_self_inst :
    0 < dotR [(1 : ℝ)] [(1 : ℝ)] ∧
    image_pair_cosine_distance [(1 : ℝ)] [(1 : ℝ)] = Except.ok 1 :=
  ⟨by norm_num [dotR], cosine_distance_self [(1 : ℝ)] (by norm_num [dotR])⟩

/-! ### Label grouping (cell 29) -/

/-- Auxiliary for `np.argmax`: best value, its index, the index of the next
element, remaining elements; strict comparison keeps the first maximum. -/
def argmaxAux : ℚ → ℕ → ℕ → List ℚ → ℕ
  | _, bi, _, [] => bi
  | bv, bi, i, x :: xs =>
      if bv < x then argmaxAux x i (i + 1) xs else argmaxAux bv bi (i + 1) xs

/-- `np.argmax(l)`: index of the first occurrence of the maximum (0 on the
empty list; the notebook applies it only to the 10-component label rows). -/
def argmax (l : List ℚ) : ℕ :=
  match l with
  | [] => 0
  | x :: xs => argmaxAux x 0 1 xs

/-- Cell 29: `label_dict[img_label].append(img_idx)` over
`enumerate(img_labels)` — for each class `c`, the sample indices `i` (in
increasing order) with `img_labels[i] = c`. -/
def label_dict (img_labels : List ℕ) (c : ℕ) : List ℕ :=
  (List.range img_labels.length).filter (fun i => img_labels.get? i == some c)

theorem mem_label_dict (L : List ℕ) (c i : ℕ) :
    i ∈ label_dict L c ↔ L.get? i = some c := by
  simp only [label_dict, List.mem_filter, List.mem_range, beq_iff_eq]
  constructor
  · rintro ⟨-, h⟩; exact h
  · intro h
    obtain ⟨hlt, -⟩ := List.get?_eq_some.mp h
    exact ⟨hlt, h⟩

theorem argmaxAux_lt (xs : List ℚ) : ∀ (bv : ℚ) (bi i : ℕ), bi < i →
    argmaxAux bv bi i xs < i + xs.length := by
  induction xs with
  | nil =>
    intro bv bi i h
    simpa [argmaxAux] using h
  | cons x t ih =>
    intro bv bi i h
    rw [argmaxAux]
    split
    · have := ih x i (i + 1) (Nat.lt_succ_self i)
      simp only [List.length_cons]
      omega
    · have := ih bv bi (i + 1) (Nat.lt_succ_of_lt h)
      simp only [List.length_cons]
      omega

theorem argmax_lt_length (l : List ℚ) (hl : l ≠ []) : argmax l < l.length := by
  cases l with
  | nil => exact absurd rfl hl
  | cons x xs =>
    rw [argmax]
    have := argmaxAux_lt xs x 0 1 Nat.zero_lt_one
    simp only [List.length_cons]
    omega

/-- C8: for a batch of 50 one-hot label rows over 10 classes, grouping
sample indices by the arg-max of their label row partitions the 50 indices:
every index `i < 50` lies in the group of exactly one class `c`, and that
class satisfies `c < 10`. -/
theorem label_grouping_partitions (raws : List (List ℚ))
    (h50 : raws.length = 50) (h10 : ∀ r ∈ raws, r.length = 10) :
    ∀ i < 50, ∃ c, c < 10 ∧
      i ∈ label_dict (raws.map argmax) c ∧
      ∀ d, i ∈ label_dict (raws.map argmax) d → d = c := by
  intro i hi
  have hiL : i < (raws.map argmax).length := by
    rw [List.length_map, h50]; exact hi
  have hget : (raws.map argmax).get? i =
      some ((raws.map argmax).get ⟨i, hiL⟩) := List.get?_eq_get hiL
  refine ⟨(raws.map argmax).get ⟨i, hiL⟩, ?_,
    (mem_label_dict _ _ _).mpr hget, ?_⟩
  · have hir : i < raws.length := by rw [h50]; exact hi
    have hmap : (raws.map argmax).get ⟨i, hiL⟩ =
        argmax (raws.get ⟨i, hir⟩) := by
      simp [List.get_eq_getElem, List.getElem_map]
    rw [hmap]
    have hmem : raws.get ⟨i, hir⟩ ∈ raws := List.get_mem raws _ _
    have hlen10 := h10 _ hmem
    have hne : raws.get ⟨i, hir⟩ ≠ [] := by
      intro hnil
      rw [hnil] at hlen10
      simp at hlen10
    have := argmax_lt_length _ hne
    omega
  · intro d hd
    have h1 := (mem_label_dict _ _ _).mp hd
    rw [hget] at h1
    exact (Option.some.injEq _ _ ▸ h1).symm ▸ rfl

/-- C8 witness: 50 copies of the one-hot row for class 0. -/
theorem label_grouping_partitions_inst :
    ∃ c, c < 10 ∧
      0 ∈ label_dict
        ((List.replicate 50
          ([1, 0, 0, 0, 0, 0, 0, 0, 0, 0] : List ℚ)).map argmax) c ∧
      ∀ d, 0 ∈ label_dict
        ((List.replicate 50
          ([1, 0, 0, 0, 0, 0, 0, 0, 0, 0] : List ℚ)).map argmax) d → d = c :=
  label_grouping_partitions _ (by simp)
    (fun r hr => by rw [List.eq_of_mem_replicate hr]; rfl) 0 (by norm_num)

end CNTK105
